import Mathlib

/-!
Verification of the PPT_UI combined HTTP server (`server.js`).

The server is shallowly embedded: the request handler `handleRequest` and the
generation subprocess wrapper `generatePresentation` (split here into the
argument builder `generatePresentationSpawn` and the close-event callback
`generatePresentationP`) are translated from the source.  External boundaries
(the `JSON.parse` builtin, the spawned python process, the file system, the
WHATWG URL parser) are modelled as explicit inputs: a request carries its body
parse outcome, the environment carries a file-system map, a process outcome
(exit code, captured stdio, output-directory listing at close time) and the
generated identifier.
-/

/-- JSON values as produced by the server (only the shapes it builds:
strings, booleans, arrays and objects with ordered fields). -/
inductive JVal where
  | str (s : String)
  | bool (b : Bool)
  | arr (xs : List JVal)
  | obj (fields : List (String × JVal))
deriving Repr

/-- Escaping of one character inside a JSON string literal, as
`JSON.stringify` does for the characters the server can emit. -/
def escapeJsonChar (c : Char) : List Char :=
  if c = '"' then ['\\', '"']
  else if c = '\\' then ['\\', '\\']
  else if c = '\n' then ['\\', 'n']
  else [c]

/-- Escape a whole string for inclusion in a JSON string literal. -/
def escapeJson (s : String) : String :=
  ⟨s.data.foldr (fun c acc => escapeJsonChar c ++ acc) []⟩

mutual

/-- `JSON.stringify` for the values the server emits: no whitespace,
object fields in insertion order. -/
def JVal.stringify : JVal → String
  | .str s => "\"" ++ escapeJson s ++ "\""
  | .bool b => if b then "true" else "false"
  | .arr xs => "[" ++ stringifyArr xs ++ "]"
  | .obj fs => "\x7b" ++ stringifyObj fs ++ "\x7d"

/-- Comma-separated stringification of a JSON array's elements. -/
def stringifyArr : List JVal → String
  | [] => ""
  | [x] => x.stringify
  | x :: y :: xs => x.stringify ++ "," ++ stringifyArr (y :: xs)

/-- Comma-separated stringification of a JSON object's fields. -/
def stringifyObj : List (String × JVal) → String
  | [] => ""
  | [(k, v)] => "\"" ++ escapeJson k ++ "\":" ++ v.stringify
  | (k, v) :: p :: ps =>
      "\"" ++ escapeJson k ++ "\":" ++ v.stringify ++ "," ++ stringifyObj (p :: ps)

end

/-- Field lookup in a JSON object value. -/
def JVal.lookupField : JVal → String → Option JVal
  | .obj fs, k => fs.lookup k
  | _, _ => none

/-! ### Node `path` module (posix), as used by the server -/

/-- Split a character list on `'/'` (groups between separators; a separator
at either end yields an empty group there). -/
def splitSlash : List Char → List (List Char)
  | [] => [[]]
  | c :: cs =>
    let r := splitSlash cs
    if c = '/' then [] :: r
    else
      match r with
      | [] => [[c]]
      | g :: gs => (c :: g) :: gs

/-- One step of posix path normalization over the segment stack: empty and
`.` segments are dropped, `..` pops the previous segment (or is dropped at
the root, as for absolute paths), any other segment is kept. -/
def stepSegC (acc : List (List Char)) (seg : List Char) : List (List Char) :=
  if seg = [] ∨ seg = ['.'] then acc
  else if seg = ['.', '.'] then acc.dropLast
  else acc ++ [seg]

/-- Render a list of path segments, `'/'`-separated. -/
def joinSegsC : List (List Char) → List Char
  | [] => []
  | [g] => g
  | g :: g2 :: gs => g ++ '/' :: joinSegsC (g2 :: gs)

/-- `path.join(a, b)` for an absolute `a`, per Node's posix implementation:
concatenate with a separator, then normalize (`.`/`..` resolution, duplicate
separator collapse). -/
def posixJoinAbs (a b : String) : String :=
  ⟨'/' :: joinSegsC ((splitSlash (a.data ++ '/' :: b.data)).foldl stepSegC [])⟩

/-- The absolute path whose segment list is `ds` (so `absOf [] = "/"`). -/
def absOf (ds : List String) : String :=
  ⟨'/' :: joinSegsC (ds.map String.data)⟩

/-- Node's posix `path.basename`: drop trailing separators, then take the
final segment. -/
def pathBasename (p : String) : String :=
  ⟨(((p.data.reverse).dropWhile (fun c => c = '/')).takeWhile (fun c => c ≠ '/')).reverse⟩

/-- Node's posix `path.extname`: the final-segment suffix from its last dot
(inclusive), empty for dotfiles and for the special name `..`. -/
def extnameOf (p : String) : String :=
  let b := (pathBasename p).data
  if b = ['.', '.'] then ""
  else
    let r := b.reverse
    let pre := r.takeWhile (fun c => c ≠ '.')
    if pre.length = r.length then ""
    else
      let rest := r.drop (pre.length + 1)
      if rest = [] then ""
      else ⟨'.' :: pre.reverse⟩

/-! ### String operations of the JavaScript runtime -/

/-- `a.toLowerCase()` restricted to the ASCII range the server's file
extensions live in. -/
def lowerStr (s : String) : String := ⟨s.data.map Char.toLower⟩

/-- JavaScript `s.startsWith(p)`. -/
def strStartsWith (s p : String) : Bool := p.data.isPrefixOf s.data

/-- JavaScript `s.endsWith(p)`. -/
def strEndsWith (s p : String) : Bool := p.data.reverse.isPrefixOf s.data.reverse

/-- Lexicographic comparison of character lists, as JavaScript's default
`<`-based string ordering used by `Array.prototype.sort`. -/
def lexLe : List Char → List Char → Bool
  | [], _ => true
  | _ :: _, [] => false
  | a :: as, b :: bs => if a < b then true else if a = b then lexLe as bs else false

/-- JavaScript string ordering `a <= b`. -/
def strLe (a b : String) : Bool := lexLe a.data b.data

/-! ### Server data model -/

/-- The `MIME_TYPES` extension table (source lines 31-43). -/
def MIME_TYPES : List (String × String) :=
  [(".html", "text/html; charset=utf-8"),
   (".css", "text/css"),
   (".js", "application/javascript"),
   (".json", "application/json"),
   (".png", "image/png"),
   (".jpg", "image/jpeg"),
   (".gif", "image/gif"),
   (".svg", "image/svg+xml"),
   (".ico", "image/x-icon"),
   (".woff", "font/woff"),
   (".woff2", "font/woff2")]

/-- `MIME_TYPES[ext] || fallback`. -/
def mimeOr (ext fallback : String) : String :=
  match MIME_TYPES.lookup ext with
  | some m => m
  | none => fallback

/-- The fields of a parsed `/api/generate` JSON body that the server reads
(`options.topic` etc.); `none` models an absent property. -/
structure GenOptions where
  topic : Option String
  type : Option String
  audience : Option String
  duration : Option Nat
  tone : Option String
  industry : Option String
deriving Repr, DecidableEq

/-- The object resolved by `generatePresentation` (`success` plus the
optional `url`/`filename`/`error` properties). -/
structure GenResult where
  success : Bool
  url : Option String
  filename : Option String
  error : Option String
deriving Repr, DecidableEq

/-- Serialization of a `GenResult` in the field order the source object
literals use (`success`, then `url`, `filename`, `error` when present). -/
def GenResult.toJson (r : GenResult) : JVal :=
  .obj ([("success", JVal.bool r.success)]
    ++ (match r.url with | some u => [("url", JVal.str u)] | none => [])
    ++ (match r.filename with | some f => [("filename", JVal.str f)] | none => [])
    ++ (match r.error with | some e => [("error", JVal.str e)] | none => []))

/-- JavaScript truthiness of `options.topic` (an absent property and the
empty string are falsy; every other string, including whitespace, is truthy). -/
def jsTruthy (o : Option String) : Bool :=
  match o with
  | some s => !(s = "")
  | none => false

/-- JavaScript `a || d` for an optional string field (absent and `""` both
fall back to the default). -/
def jsOrStr (o : Option String) (d : String) : String :=
  match o with
  | some s => if s = "" then d else s
  | none => d

/-- JavaScript `a || d` for an optional numeric field (absent and `0` both
fall back to the default). -/
def jsOrNat (o : Option Nat) (d : Nat) : Nat :=
  match o with
  | some n => if n = 0 then d else n
  | none => d

/-- The argument vector `generatePresentation` passes to `spawn('python3', ...)`
(source lines 53-66): script path, the topic positionally, then the flag
pairs with JavaScript `||` defaults, the computed output path, and the fixed
output format. -/
def generatePresentationSpawn (scriptsDir outDir : String) (opts : GenOptions)
    (genId : String) : List String :=
  [posixJoinAbs scriptsDir "search.py",
   (opts.topic.getD ""),
   "--presentation",
   "--type", jsOrStr opts.type "business_presentation",
   "--audience", jsOrStr opts.audience "general_employees",
   "--duration", toString (jsOrNat opts.duration 15),
   "--tone", jsOrStr opts.tone "professional",
   "--industry", jsOrStr opts.industry "",
   "--output", posixJoinAbs outDir ("presentation_" ++ genId ++ ".html"),
   "--presentation-format", "reveal_js"]

/-- Outcome of the spawned process, as observed by the `close` handler:
exit code (`none` models JavaScript `null` after signal termination or spawn
failure), the accumulated stdio texts, and the output-directory listing read
by `readdirSync` when the process closes. -/
structure GenOutcome where
  exitCode : Option Int
  stdout : String
  stderr : String
  listingAtClose : List String
deriving Repr, DecidableEq

/-- The filter applied to the output-directory listing (source line 83). -/
def genFilter (listing : List String) : List String :=
  listing.filter (fun f => strStartsWith f "presentation_" && strEndsWith f ".html")

/-- The `close`-event callback of `generatePresentation` (source lines
79-105), as the promise executor's outcome: `.ok` models `resolve`,
`.error` would model `reject` (which the source never calls).  On exit code
`0` the filtered listing is sorted ascending and reversed and the first
entry reported; otherwise the captured stderr (or a generic message) is
reported as the error. -/
def generatePresentationP (proc : GenOutcome) : Except String GenResult :=
  if proc.exitCode = some 0 then
    match (List.insertionSort (fun a b => strLe a b = true) (genFilter proc.listingAtClose)).reverse with
    | f :: _ => .ok { success := true, url := some ("/output/" ++ f), filename := some f, error := none }
    | [] => .ok { success := false, url := none, filename := none, error := some "生成失败，未找到输出文件" }
  else
    .ok { success := false, url := none, filename := none,
          error := some (if proc.stderr = "" then "生成失败" else proc.stderr) }

/-! ### HTTP layer -/

/-- A file-system entry as distinguished by `existsSync`/`statSync`/
`readFileSync`: a regular file with its content, or a directory. -/
inductive FsEntry where
  | file (content : String)
  | dir
deriving Repr, DecidableEq

instance : DecidableEq (Except String GenOptions) := fun
  | .error a, .error b => decidable_of_iff (a = b) (by simp)
  | .error _, .ok _ => .isFalse (fun h => Except.noConfusion h)
  | .ok _, .error _ => .isFalse (fun h => Except.noConfusion h)
  | .ok a, .ok b => decidable_of_iff (a = b) (by simp)

/-- An incoming request: method, raw url, and the outcome of `JSON.parse`
on its accumulated body (`JSON.parse` is a builtin treated as a boundary;
`.error` carries the thrown message). -/
structure HttpRequest where
  method : String
  url : String
  body : Except String GenOptions
deriving Repr, DecidableEq

/-- A response: status code, headers in the order set (the three CORS
headers from `setHeader`, then any `writeHead` headers), and body. -/
structure HttpResponse where
  status : Nat
  headers : List (String × String)
  body : String
deriving Repr, DecidableEq

/-- The three CORS headers attached to every response (source lines 117-119). -/
def corsHeaders : List (String × String) :=
  [("Access-Control-Allow-Origin", "*"),
   ("Access-Control-Allow-Methods", "GET, POST, OPTIONS"),
   ("Access-Control-Allow-Headers", "Content-Type")]

/-- A JSON response with the given status. -/
def jsonResp (status : Nat) (body : String) : HttpResponse :=
  ⟨status, corsHeaders ++ [("Content-Type", "application/json")], body⟩

/-- A response with the given status and content type. -/
def typedResp (status : Nat) (contentType body : String) : HttpResponse :=
  ⟨status, corsHeaders ++ [("Content-Type", contentType)], body⟩

/-- The server environment: the fixed directory paths, the file system, the
spawned process's outcome, and the identifier produced by `generateId()`. -/
structure ServerEnv where
  scriptsDir : String
  outDir : String
  frontendDir : String
  fs : String → Option FsEntry
  proc : GenOutcome
  genId : String

/-- `new URL(req.url, base).pathname` for the origin-form request targets
the server receives: the part of the raw url before any query or fragment. -/
def stripQF (u : String) : String :=
  ⟨u.data.takeWhile (fun c => c ≠ '?' ∧ c ≠ '#')⟩

/-- The `{status, message}` health object (source line 130). -/
def healthVal : JVal :=
  .obj [("status", JVal.str "ok"), ("message", JVal.str "PPT Generator Server")]

/-- The four fixed template catalog entries (source lines 138-141). -/
def templatesEntries : List JVal :=
  [.obj [("id", JVal.str "modern-elegant"), ("name", JVal.str "现代优雅"),
         ("description", JVal.str "渐变背景，现代排版，适合产品发布"),
         ("preview", JVal.str "linear-gradient(135deg, #667eea 0%, #764ba2 100%)")],
   .obj [("id", JVal.str "corporate-blue"), ("name", JVal.str "企业蓝调"),
         ("description", JVal.str "专业商务风格，适合企业汇报"),
         ("preview", JVal.str "linear-gradient(180deg, #1a365d 0%, #2b6cb0 100%)")],
   .obj [("id", JVal.str "minimal-clean"), ("name", JVal.str "极简纯净"),
         ("description", JVal.str "极简主义设计，适合技术分享"),
         ("preview", JVal.str "#ffffff")],
   .obj [("id", JVal.str "creative-bold"), ("name", JVal.str "创意大胆"),
         ("description", JVal.str "赛博朋克风格，适合创意提案"),
         ("preview", JVal.str "linear-gradient(135deg, #0a0a0f 0%, #1a1a2e 50%, #16213e 100%)")]]

/-- The `/api/templates` payload. -/
def templatesVal : JVal := .obj [("templates", JVal.arr templatesEntries)]

/-- The seven fixed presentation-type catalog entries (source lines 151-157). -/
def typesEntries : List JVal :=
  [.obj [("id", JVal.str "business_presentation"), ("name", JVal.str "商业汇报"),
         ("icon", JVal.str "📊"), ("desc", JVal.str "季度总结、进度汇报")],
   .obj [("id", JVal.str "investor_pitch"), ("name", JVal.str "投资路演"),
         ("icon", JVal.str "🎯"), ("desc", JVal.str "创业融资、VC 演示")],
   .obj [("id", JVal.str "product_launch"), ("name", JVal.str "产品发布"),
         ("icon", JVal.str "🚀"), ("desc", JVal.str "新品发布、功能介绍")],
   .obj [("id", JVal.str "training_workshop"), ("name", JVal.str "培训研讨"),
         ("icon", JVal.str "📚"), ("desc", JVal.str "企业培训、工作坊")],
   .obj [("id", JVal.str "webinar"), ("name", JVal.str "在线讲座"),
         ("icon", JVal.str "🎥"), ("desc", JVal.str "网络研讨会、直播")],
   .obj [("id", JVal.str "keynote"), ("name", JVal.str "主题演讲"),
         ("icon", JVal.str "🎤"), ("desc", JVal.str "会议演讲、论坛")],
   .obj [("id", JVal.str "sales_pitch"), ("name", JVal.str "销售演示"),
         ("icon", JVal.str "💰"), ("desc", JVal.str "客户提案、商务洽谈")]]

/-- The `/api/presentation-types` payload. -/
def typesVal : JVal := .obj [("types", JVal.arr typesEntries)]

/-- The six fixed audience catalog entries (source lines 167-172). -/
def audiencesEntries : List JVal :=
  [.obj [("id", JVal.str "general_employees"), ("name", JVal.str "普通员工"), ("icon", JVal.str "👥")],
   .obj [("id", JVal.str "senior_executives"), ("name", JVal.str "高管领导"), ("icon", JVal.str "👔")],
   .obj [("id", JVal.str "investors"), ("name", JVal.str "投资人士"), ("icon", JVal.str "💼")],
   .obj [("id", JVal.str "clients"), ("name", JVal.str "客户伙伴"), ("icon", JVal.str "🤝")],
   .obj [("id", JVal.str "technical_team"), ("name", JVal.str "技术团队"), ("icon", JVal.str "💻")],
   .obj [("id", JVal.str "students"), ("name", JVal.str "学生群体"), ("icon", JVal.str "🎓")]]

/-- The `/api/audiences` payload. -/
def audiencesVal : JVal := .obj [("audiences", JVal.arr audiencesEntries)]

/-- The `<h1>` body of the `/output/` 404 response (source line 213). -/
def outputNotFoundBody : String := "<h1>404 - 文件未找到</h1>"

/-- The error object serialized when `topic` is falsy (source line 187). -/
def topicMissingVal : JVal :=
  .obj [("success", JVal.bool false), ("error", JVal.str "请输入演示主题")]

/-- The inline HTML landing/help page served when the static fallback finds
no file (source lines 233-289). -/
def fallbackHtml : String := "
<!DOCTYPE html>
<html>
<head>
  <meta charset=\"utf-8\">
  <title>PPT Generator</title>
  <style>
    body \x7b
      font-family: -apple-system, BlinkMacSystemFont, 'Segoe UI', Roboto, sans-serif;
      max-width: 800px;
      margin: 50px auto;
      padding: 20px;
      background: linear-gradient(135deg, #667eea 0%, #764ba2 100%);
      min-height: 100vh;
      color: white;
    \x7d
    h1 \x7b font-size: 2.5em; margin-bottom: 20px; \x7d
    p \x7b font-size: 1.2em; opacity: 0.9; \x7d
    .links \x7b margin-top: 30px; \x7d
    a \x7b
      display: inline-block;
      padding: 15px 30px;
      margin: 10px;
      background: rgba(255,255,255,0.2);
      color: white;
      text-decoration: none;
      border-radius: 10px;
      backdrop-filter: blur(10px);
      transition: all 0.3s;
    \x7d
    a:hover \x7b background: rgba(255,255,255,0.3); transform: translateY(-2px); \x7d
    .info \x7b
      background: rgba(0,0,0,0.2);
      padding: 20px;
      border-radius: 10px;
      margin-top: 30px;
    \x7d
  </style>
</head>
<body>
  <h1>🎯 PPT Generator</h1>
  <p>AI 智能演示文稿生成平台</p>
  
  <div class=\"links\">
    <a href=\"/\">📱 打开前端界面</a>
  </div>
  
  <div class=\"info\">
    <h2>使用说明</h2>
    <p>1. 在前端界面输入演示主题</p>
    <p>2. 选择模板、类型、受众等</p>
    <p>3. 点击生成，等待 AI 创建演示文稿</p>
    <p>4. 预览并下载生成的 HTML 文件</p>
  </div>
</body>
</html>
    "

/-- The `/api/generate` branch (source lines 178-201): a body parse failure
is answered 500, a falsy `topic` 400; otherwise the process is spawned and
the awaited `GenerationResult` is forwarded verbatim with status 200 (a
promise rejection would be caught and answered 500; the executor never
rejects).  The second component records the argument vectors of the
processes spawned while handling the request. -/
def generateRoute (env : ServerEnv) (req : HttpRequest) :
    Option HttpResponse × List (List String) :=
  match req.body with
  | .error e =>
      (some (jsonResp 500 (JVal.stringify (.obj [("success", JVal.bool false), ("error", JVal.str e)]))), [])
  | .ok opts =>
      if jsTruthy opts.topic then
        let argv := generatePresentationSpawn env.scriptsDir env.outDir opts env.genId
        match generatePresentationP env.proc with
        | .ok result => (some (jsonResp 200 result.toJson.stringify), [argv])
        | .error e =>
            (some (jsonResp 500 (JVal.stringify (.obj [("success", JVal.bool false), ("error", JVal.str e)]))), [argv])
      else
        (some (jsonResp 400 topicMissingVal.stringify), [])

/-- The `/output/` file route (source lines 203-216): serve
`path.join(OUTPUT_DIR, path.basename(pathname))` when it exists, else 404.
`readFileSync` on an existing directory throws, leaving the request without
a response (`none`). -/
def outputRoute (env : ServerEnv) (pathname : String) :
    Option HttpResponse × List (List String) :=
  let filename := pathBasename pathname
  let filePath := posixJoinAbs env.outDir filename
  match env.fs filePath with
  | some (.file content) =>
      (some (typedResp 200 (mimeOr (lowerStr (extnameOf filename)) "text/html") content), [])
  | some .dir => (none, [])
  | none => (some (typedResp 404 "text/html; charset=utf-8" outputNotFoundBody), [])

/-- The static-asset fallback (source lines 218-291): the root and
`/index.html` resolve to the index document; an existing regular file is
served with an extension-derived MIME type, anything else gets the inline
404/help page. -/
def staticRoute (env : ServerEnv) (pathname : String) :
    Option HttpResponse × List (List String) :=
  let filePath :=
    if pathname = "/" ∨ pathname = "/index.html" then posixJoinAbs env.frontendDir "index.html"
    else posixJoinAbs env.frontendDir pathname
  let ext := lowerStr (extnameOf filePath)
  match env.fs filePath with
  | some (.file content) =>
      (some (typedResp 200 (mimeOr ext "application/octet-stream") content), [])
  | _ => (some (typedResp 404 "text/html; charset=utf-8" fallbackHtml), [])

/-- The request dispatcher `handleRequest` (source lines 110-291): CORS
headers on every response, an OPTIONS short-circuit, the four fixed JSON
catalog routes matched by pathname, the POST generation route, the
`/output/` file route, and the static fallback. -/
def handleRequest (env : ServerEnv) (req : HttpRequest) :
    Option HttpResponse × List (List String) :=
  let pathname := stripQF req.url
  if req.method = "OPTIONS" then (some ⟨204, corsHeaders, ""⟩, [])
  else if pathname = "/api/health" then (some (jsonResp 200 healthVal.stringify), [])
  else if pathname = "/api/templates" then (some (jsonResp 200 templatesVal.stringify), [])
  else if pathname = "/api/presentation-types" then (some (jsonResp 200 typesVal.stringify), [])
  else if pathname = "/api/audiences" then (some (jsonResp 200 audiencesVal.stringify), [])
  else if pathname = "/api/generate" ∧ req.method = "POST" then generateRoute env req
  else if strStartsWith pathname "/output/" then outputRoute env pathname
  else staticRoute env pathname

/-- A clean path segment: non-empty, not a dot segment, and containing no
separator — exactly the names that denote an entry directly inside a
directory. -/
def cleanSeg (s : String) : Prop :=
  s ≠ "" ∧ s ≠ "." ∧ s ≠ ".." ∧ '/' ∉ s.data

instance (s : String) : Decidable (cleanSeg s) := by
  unfold cleanSeg
  infer_instance

/-! ### Helper lemmas: the JavaScript string order -/

theorem lexLe_refl (a : List Char) : lexLe a a = true := by
  induction a with
  | nil => rfl
  | cons c cs ih => simp [lexLe, ih]

theorem lexLe_total (a b : List Char) : lexLe a b = true ∨ lexLe b a = true := by
  induction a generalizing b with
  | nil => exact Or.inl rfl
  | cons x xs ih =>
    cases b with
    | nil => exact Or.inr rfl
    | cons y ys =>
      rcases lt_trichotomy x y with h | h | h
      · exact Or.inl (by simp [lexLe, h])
      · subst h
        rcases ih ys with h2 | h2
        · exact Or.inl (by simp [lexLe, h2])
        · exact Or.inr (by simp [lexLe, h2])
      · exact Or.inr (by simp [lexLe, h])

theorem lexLe_trans : ∀ {a b c : List Char},
    lexLe a b = true → lexLe b c = true → lexLe a c = true := by
  intro a
  induction a with
  | nil => intro b c _ _; rfl
  | cons x xs ih =>
    intro b c h1 h2
    cases b with
    | nil => simp [lexLe] at h1
    | cons y ys =>
      cases c with
      | nil => simp [lexLe] at h2
      | cons z zs =>
        simp only [lexLe] at h1 h2 ⊢
        by_cases hxy : x < y
        · by_cases hyz : y < z
          · simp [lt_trans hxy hyz]
          · by_cases hyz2 : y = z
            · subst hyz2; simp [hxy]
            · simp [hyz, hyz2] at h2
        · by_cases hxy2 : x = y
          · subst hxy2
            simp only [hxy, if_false, if_pos rfl] at h1
            by_cases hyz : x < z
            · simp [hyz]
            · by_cases hyz2 : x = z
              · subst hyz2; simp [hyz, ih h1 (by simpa [hyz] using h2)]
              · simp [hyz, hyz2] at h2
          · simp [hxy, hxy2] at h1

instance : IsTotal String (fun a b => strLe a b = true) :=
  ⟨fun a b => lexLe_total a.data b.data⟩

instance : IsTrans String (fun a b => strLe a b = true) :=
  ⟨fun _ _ _ h1 h2 => lexLe_trans h1 h2⟩

theorem sorted_append_singleton {α : Type} {r : α → α → Prop} {l : List α} {f : α}
    (hrefl : ∀ a, r a a) (h : List.Sorted r (l ++ [f])) :
    ∀ x ∈ l ++ [f], r x f := by
  intro x hx
  rcases List.mem_append.mp hx with hx | hx
  · exact ((List.pairwise_append.mp h).2.2) x hx f (List.mem_singleton_self f)
  · rw [List.mem_singleton.mp hx]; exact hrefl f

/-- C1: on exit code zero the invoker filters the output-directory listing
by the generation name pattern, sorts descending and returns the first match
(a maximum for the string order, hence newest under the timestamp naming) as
`/output/<name>` and `<name>`; with no match it fails with the no-output
message; on nonzero exit it fails with the captured stderr, or the fixed
generic message when stderr is empty. -/
theorem generatePresentation_close_spec (proc : GenOutcome) :
    (proc.exitCode = some 0 → genFilter proc.listingAtClose ≠ [] →
      ∃ f, generatePresentationP proc =
          .ok ⟨true, some ("/output/" ++ f), some f, none⟩ ∧
        f ∈ genFilter proc.listingAtClose ∧
        strStartsWith f "presentation_" = true ∧ strEndsWith f ".html" = true ∧
        (∀ g ∈ genFilter proc.listingAtClose, strLe g f = true)) ∧
    (proc.exitCode = some 0 → genFilter proc.listingAtClose = [] →
      generatePresentationP proc = .ok ⟨false, none, none, some "生成失败，未找到输出文件"⟩) ∧
    (proc.exitCode ≠ some 0 →
      generatePresentationP proc =
        .ok ⟨false, none, none, some (if proc.stderr = "" then "生成失败" else proc.stderr)⟩) := by
  refine ⟨?_, ?_, ?_⟩
  · intro h0 hne
    have hperm := List.perm_insertionSort (fun a b => strLe a b = true) (genFilter proc.listingAtClose)
    set s := List.insertionSort (fun a b => strLe a b = true) (genFilter proc.listingAtClose) with hs
    have hsorted : List.Sorted (fun a b => strLe a b = true) s :=
      List.sorted_insertionSort _ _
    have hsne : s ≠ [] := by
      intro h
      exact hne ((h ▸ hperm).symm.eq_nil)
    cases hrev : s.reverse with
    | nil => exact absurd (List.reverse_eq_nil_iff.mp hrev) hsne
    | cons f rest =>
      have hsr : s = rest.reverse ++ [f] := by
        have := congrArg List.reverse hrev
        simpa using this
      refine ⟨f, ?_, ?_, ?_, ?_, ?_⟩
      · simp only [generatePresentationP, h0, if_pos]
        rw [← hs, hrev]
      · have : f ∈ s := by rw [hsr]; exact List.mem_append.mpr (Or.inr (List.mem_singleton_self f))
        exact hperm.subset this
      · have hf : f ∈ genFilter proc.listingAtClose := by
          have : f ∈ s := by rw [hsr]; exact List.mem_append.mpr (Or.inr (List.mem_singleton_self f))
          exact hperm.subset this
        have := List.of_mem_filter hf
        exact (Bool.and_eq_true _ _ |>.mp this).1
      · have hf : f ∈ genFilter proc.listingAtClose := by
          have : f ∈ s := by rw [hsr]; exact List.mem_append.mpr (Or.inr (List.mem_singleton_self f))
          exact hperm.subset this
        have := List.of_mem_filter hf
        exact (Bool.and_eq_true _ _ |>.mp this).2
      · intro g hg
        have hgs : g ∈ s := (hperm.mem_iff).mpr hg
        rw [hsr] at hgs hsorted
        exact @sorted_append_singleton String (fun a b => strLe a b = true) rest.reverse f
          (fun a => lexLe_refl a.data) hsorted g hgs
  · intro h0 hnil
    simp [generatePresentationP, h0, hnil]
  · intro hne
    simp [generatePresentationP, hne]

/-- Witness for C1: all three branches evaluated at concrete process
outcomes.  Of the two matching files the lexicographically larger
`presentation_b.html` is reported. -/
theorem generatePresentation_close_spec_witness :
    (∃ f, generatePresentationP ⟨some 0, "", "", ["presentation_a.html", "presentation_b.html", "zzz.txt"]⟩ =
        .ok ⟨true, some ("/output/" ++ f), some f, none⟩ ∧
      f ∈ genFilter ["presentation_a.html", "presentation_b.html", "zzz.txt"] ∧
      strStartsWith f "presentation_" = true ∧ strEndsWith f ".html" = true ∧
      (∀ g ∈ genFilter ["presentation_a.html", "presentation_b.html", "zzz.txt"], strLe g f = true)) ∧
    generatePresentationP ⟨some 0, "", "", ["other.txt"]⟩ =
      .ok ⟨false, none, none, some "生成失败，未找到输出文件"⟩ ∧
    generatePresentationP ⟨some 1, "", "boom", []⟩ =
      .ok ⟨false, none, none, some (if "boom" = "" then "生成失败" else "boom")⟩ :=
  ⟨(generatePresentation_close_spec _).1 rfl (by decide),
   (generatePresentation_close_spec _).2.1 rfl (by decide),
   (generatePresentation_close_spec _).2.2 (by decide)⟩

theorem generatePresentationP_isOk (proc : GenOutcome) :
    ∃ r, generatePresentationP proc = .ok r := by
  unfold generatePresentationP
  split
  · cases (List.insertionSort (fun a b => strLe a b = true) (genFilter proc.listingAtClose)).reverse with
    | nil => exact ⟨_, rfl⟩
    | cons f rest => exact ⟨_, rfl⟩
  · exact ⟨_, rfl⟩

/-- C2 fails on the code as stated: the topic check is JavaScript truthiness
without trimming, so the whitespace-only topic `" "` is not rejected: the
response has status 200 (not 400) and one external process is spawned. -/
theorem topic_whitespace_not_rejected_cex :
    ((handleRequest ⟨"/s", "/o", "/f", fun _ => none, ⟨some 1, "", "x", []⟩, "id1"⟩
        ⟨"POST", "/api/generate", .ok ⟨some " ", none, none, none, none, none⟩⟩).1.map
      HttpResponse.status = some 200) ∧
    (handleRequest ⟨"/s", "/o", "/f", fun _ => none, ⟨some 1, "", "x", []⟩, "id1"⟩
        ⟨"POST", "/api/generate", .ok ⟨some " ", none, none, none, none, none⟩⟩).2.length = 1 :=
  ⟨rfl, rfl⟩

/-- C2 (amended): a POST to `/api/generate` whose parsed body has `topic`
missing or equal to the empty string is answered 400 with the structured
error object and no process is spawned; whitespace-only topics are NOT
rejected (no trimming is performed). -/
theorem topic_missing_or_empty_rejected (env : ServerEnv) (req : HttpRequest)
    (opts : GenOptions) (hb : req.body = .ok opts)
    (hm : req.method = "POST") (hu : stripQF req.url = "/api/generate")
    (ht : opts.topic = none ∨ opts.topic = some "") :
    handleRequest env req = (some (jsonResp 400 topicMissingVal.stringify), []) := by
  have e1 : ("/api/generate" : String) ≠ "/api/health" := by decide
  have e2 : ("/api/generate" : String) ≠ "/api/templates" := by decide
  have e3 : ("/api/generate" : String) ≠ "/api/presentation-types" := by decide
  have e4 : ("/api/generate" : String) ≠ "/api/audiences" := by decide
  have e5 : ("POST" : String) ≠ "OPTIONS" := by decide
  simp only [handleRequest, hu, hm]
  rw [if_neg e5, if_neg e1, if_neg e2, if_neg e3, if_neg e4, if_pos (by simp)]
  rcases ht with ht | ht <;> simp [generateRoute, hb, ht, jsTruthy]

/-- Witness for C2's amended theorem: a body with no `topic` property. -/
theorem topic_missing_or_empty_rejected_witness :
    handleRequest ⟨"/s", "/o", "/f", fun _ => none, ⟨some 0, "", "", []⟩, "i"⟩
        ⟨"POST", "/api/generate", .ok ⟨none, none, none, none, none, none⟩⟩ =
      (some (jsonResp 400 topicMissingVal.stringify), []) :=
  topic_missing_or_empty_rejected _ _ ⟨none, none, none, none, none, none⟩ rfl rfl (by decide)
    (Or.inl rfl)

/-- C3 fails on the code as stated: the catalog routes are matched by
pathname alone, so a POST to `/api/health` is served the catalog response
(identical to the GET response) instead of falling through. -/
theorem catalog_served_on_post_cex :
    handleRequest ⟨"/s", "/o", "/f", fun _ => none, ⟨some 0, "", "", []⟩, "i"⟩
        ⟨"POST", "/api/health", .error "x"⟩ =
      (some (jsonResp 200 healthVal.stringify), []) ∧
    handleRequest ⟨"/s", "/o", "/f", fun _ => none, ⟨some 0, "", "", []⟩, "i"⟩
        ⟨"POST", "/api/health", .error "x"⟩ =
      handleRequest ⟨"/s", "/o", "/f", fun _ => none, ⟨some 0, "", "", []⟩, "i"⟩
        ⟨"GET", "/api/health", .error "x"⟩ :=
  ⟨rfl, rfl⟩

/-- C3 (amended): the catalog routes check only the pathname: every request
whose method is not OPTIONS (which is short-circuited earlier) and whose
pathname exactly matches a catalog path is served that catalog, regardless
of method; only a path mismatch falls through. -/
theorem catalog_routes_match_path_only (env : ServerEnv) (req : HttpRequest)
    (hm : req.method ≠ "OPTIONS") :
    (stripQF req.url = "/api/health" →
      handleRequest env req = (some (jsonResp 200 healthVal.stringify), [])) ∧
    (stripQF req.url = "/api/templates" →
      handleRequest env req = (some (jsonResp 200 templatesVal.stringify), [])) ∧
    (stripQF req.url = "/api/presentation-types" →
      handleRequest env req = (some (jsonResp 200 typesVal.stringify), [])) ∧
    (stripQF req.url = "/api/audiences" →
      handleRequest env req = (some (jsonResp 200 audiencesVal.stringify), [])) := by
  refine ⟨fun hu => ?_, fun hu => ?_, fun hu => ?_, fun hu => ?_⟩ <;>
    simp only [handleRequest, hu] <;> rw [if_neg hm] <;> simp

/-- Witness for C3's amended theorem: POST `/api/templates` is served the
templates catalog. -/
theorem catalog_routes_match_path_only_witness :
    handleRequest ⟨"/s", "/o", "/f", fun _ => none, ⟨some 0, "", "", []⟩, "i"⟩
        ⟨"POST", "/api/templates", .error "x"⟩ =
      (some (jsonResp 200 templatesVal.stringify), []) :=
  (catalog_routes_match_path_only _ _ (by decide)).2.1 rfl

/-- C5: a POST to `/api/generate` whose body contains only a non-empty
topic spawns the process with the script path, the topic as first
positional argument, the presentation-mode flag, and then the default
type/audience/duration/tone/industry values, the computed output path and
the fixed output format, in exactly this order. -/
theorem generate_spawn_args_defaults (env : ServerEnv) (t : String) (ht : t ≠ "") :
    (handleRequest env ⟨"POST", "/api/generate",
        .ok ⟨some t, none, none, none, none, none⟩⟩).2 =
      [[posixJoinAbs env.scriptsDir "search.py", t, "--presentation",
        "--type", "business_presentation", "--audience", "general_employees",
        "--duration", "15", "--tone", "professional", "--industry", "",
        "--output", posixJoinAbs env.outDir ("presentation_" ++ env.genId ++ ".html"),
        "--presentation-format", "reveal_js"]] := by
  have hroute : handleRequest env ⟨"POST", "/api/generate",
      .ok ⟨some t, none, none, none, none, none⟩⟩ =
    generateRoute env ⟨"POST", "/api/generate",
      .ok ⟨some t, none, none, none, none, none⟩⟩ := rfl
  rw [hroute]
  have h15 : toString (jsOrNat none 15) = "15" := rfl
  cases hgen : generatePresentationP env.proc with
  | ok r =>
    simp [generateRoute, jsTruthy, ht, hgen, generatePresentationSpawn, jsOrStr, h15]
  | error e =>
    simp [generateRoute, jsTruthy, ht, hgen, generatePresentationSpawn, jsOrStr, h15]

/-- Witness for C5 at the spec's example topic. -/
theorem generate_spawn_args_defaults_witness :
    (handleRequest ⟨"/app/scripts", "/app/output", "/app/frontend", fun _ => none,
        ⟨some 0, "", "", []⟩, "id7"⟩
      ⟨"POST", "/api/generate",
        .ok ⟨some "Q4 Sales Review", none, none, none, none, none⟩⟩).2 =
      [[posixJoinAbs "/app/scripts" "search.py", "Q4 Sales Review", "--presentation",
        "--type", "business_presentation", "--audience", "general_employees",
        "--duration", "15", "--tone", "professional", "--industry", "",
        "--output", posixJoinAbs "/app/output" ("presentation_" ++ "id7" ++ ".html"),
        "--presentation-format", "reveal_js"]] :=
  generate_spawn_args_defaults ⟨"/app/scripts", "/app/output", "/app/frontend", fun _ => none,
    ⟨some 0, "", "", []⟩, "id7"⟩ "Q4 Sales Review" (by decide)

/-- C6: a POST to `/api/generate` with a well-formed body and non-empty
topic spawns exactly one process and is answered 200 with the invoker's
result serialized verbatim as the body; the result always carries a boolean
`success` field, so generation failure surfaces only in-band. -/
theorem generate_responds_200_forwarded (env : ServerEnv) (opts : GenOptions)
    (t : String) (hb : opts.topic = some t) (ht : t ≠ "") :
    ∃ res : GenResult,
      generatePresentationP env.proc = .ok res ∧
      handleRequest env ⟨"POST", "/api/generate", .ok opts⟩ =
        (some (jsonResp 200 res.toJson.stringify),
          [generatePresentationSpawn env.scriptsDir env.outDir opts env.genId]) ∧
      res.toJson.lookupField "success" = some (.bool res.success) := by
  obtain ⟨res, hres⟩ := generatePresentationP_isOk env.proc
  refine ⟨res, hres, ?_, rfl⟩
  have hroute : handleRequest env ⟨"POST", "/api/generate", .ok opts⟩ =
      generateRoute env ⟨"POST", "/api/generate", .ok opts⟩ := rfl
  rw [hroute]
  simp [generateRoute, hb, jsTruthy, ht, hres]

/-- Witness for C6 on a concrete failing process outcome. -/
theorem generate_responds_200_forwarded_witness :
    ∃ res : GenResult,
      generatePresentationP (⟨"/s", "/o", "/f", fun _ => none,
          ⟨some 2, "", "oops", []⟩, "i"⟩ : ServerEnv).proc = .ok res ∧
      handleRequest ⟨"/s", "/o", "/f", fun _ => none, ⟨some 2, "", "oops", []⟩, "i"⟩
          ⟨"POST", "/api/generate", .ok ⟨some "T", none, none, none, none, none⟩⟩ =
        (some (jsonResp 200 res.toJson.stringify),
          [generatePresentationSpawn "/s" "/o" ⟨some "T", none, none, none, none, none⟩ "i"]) ∧
      res.toJson.lookupField "success" = some (.bool res.success) :=
  generate_responds_200_forwarded ⟨"/s", "/o", "/f", fun _ => none,
    ⟨some 2, "", "oops", []⟩, "i"⟩ ⟨some "T", none, none, none, none, none⟩ "T" rfl (by decide)

/-- C7: the four catalog routes are, in the embedding, constant in the
whole server environment and request body: each GET returns the fixed
serialized catalog with no spawn, so repeated calls are byte-identical; the
catalogs have 4, 7 and 6 entries respectively. -/
theorem catalog_routes_constant (env : ServerEnv) (b : Except String GenOptions) :
    handleRequest env ⟨"GET", "/api/health", b⟩ =
      (some (jsonResp 200 healthVal.stringify), []) ∧
    handleRequest env ⟨"GET", "/api/templates", b⟩ =
      (some (jsonResp 200 templatesVal.stringify), []) ∧
    handleRequest env ⟨"GET", "/api/presentation-types", b⟩ =
      (some (jsonResp 200 typesVal.stringify), []) ∧
    handleRequest env ⟨"GET", "/api/audiences", b⟩ =
      (some (jsonResp 200 audiencesVal.stringify), []) ∧
    templatesEntries.length = 4 ∧ typesEntries.length = 7 ∧ audiencesEntries.length = 6 :=
  ⟨rfl, rfl, rfl, rfl, rfl, rfl, rfl⟩

theorem handleRequest_options (env : ServerEnv) (req : HttpRequest)
    (h : req.method = "OPTIONS") :
    handleRequest env req = (some ⟨204, corsHeaders, ""⟩, []) := by
  unfold handleRequest
  rw [if_pos h]

theorem generateRoute_shape (env : ServerEnv) (req : HttpRequest) :
    (∃ e, req.body = .error e ∧
      generateRoute env req =
        (some (jsonResp 500 (JVal.obj [("success", JVal.bool false), ("error", JVal.str e)]).stringify), [])) ∨
    generateRoute env req = (some (jsonResp 400 topicMissingVal.stringify), []) ∨
    (∃ bd argv, generateRoute env req = (some (jsonResp 200 bd), [argv])) := by
  unfold generateRoute
  cases hb : req.body with
  | error e => exact Or.inl ⟨e, rfl, rfl⟩
  | ok opts =>
    dsimp only
    by_cases ht : jsTruthy opts.topic = true
    · rw [if_pos ht]
      cases hg : generatePresentationP env.proc with
      | ok r => exact Or.inr (Or.inr ⟨_, _, rfl⟩)
      | error e =>
        obtain ⟨r0, hr0⟩ := generatePresentationP_isOk env.proc
        rw [hr0] at hg
        exact Except.noConfusion hg
    · rw [if_neg ht]
      exact Or.inr (Or.inl rfl)

theorem outputRoute_shape (env : ServerEnv) (pn : String) :
    (∃ ct bd, outputRoute env pn = (some (typedResp 200 ct bd), [])) ∨
    (∃ bd, outputRoute env pn = (some (typedResp 404 "text/html; charset=utf-8" bd), [])) ∨
    outputRoute env pn = (none, []) := by
  unfold outputRoute
  dsimp only
  cases env.fs (posixJoinAbs env.outDir (pathBasename pn)) with
  | none => exact Or.inr (Or.inl ⟨_, rfl⟩)
  | some entry =>
    cases entry with
    | file content => exact Or.inl ⟨_, _, rfl⟩
    | dir => exact Or.inr (Or.inr rfl)

theorem staticRoute_shape (env : ServerEnv) (pn : String) :
    (∃ ct bd, staticRoute env pn = (some (typedResp 200 ct bd), [])) ∨
    (∃ bd, staticRoute env pn = (some (typedResp 404 "text/html; charset=utf-8" bd), [])) := by
  unfold staticRoute
  dsimp only
  cases env.fs (if pn = "/" ∨ pn = "/index.html" then posixJoinAbs env.frontendDir "index.html"
      else posixJoinAbs env.frontendDir pn) with
  | none => exact Or.inr ⟨_, rfl⟩
  | some entry =>
    cases entry with
    | file content => exact Or.inl ⟨_, _, rfl⟩
    | dir => exact Or.inr ⟨_, rfl⟩

theorem handleRequest_branches (env : ServerEnv) (req : HttpRequest) :
    handleRequest env req = (some ⟨204, corsHeaders, ""⟩, []) ∨
    (∃ bd, handleRequest env req = (some (jsonResp 200 bd), [])) ∨
    (∃ e, req.body = .error e ∧
      handleRequest env req =
        (some (jsonResp 500 (JVal.obj [("success", JVal.bool false), ("error", JVal.str e)]).stringify), [])) ∨
    handleRequest env req = (some (jsonResp 400 topicMissingVal.stringify), []) ∨
    (∃ bd argv, handleRequest env req = (some (jsonResp 200 bd), [argv])) ∨
    (∃ ct bd, handleRequest env req = (some (typedResp 200 ct bd), [])) ∨
    (∃ bd, handleRequest env req = (some (typedResp 404 "text/html; charset=utf-8" bd), [])) ∨
    handleRequest env req = (none, []) := by
  by_cases h1 : req.method = "OPTIONS"
  · exact Or.inl (handleRequest_options env req h1)
  have heq : handleRequest env req =
      (if stripQF req.url = "/api/health" then
        (some (jsonResp 200 healthVal.stringify), ([] : List (List String)))
      else if stripQF req.url = "/api/templates" then
        (some (jsonResp 200 templatesVal.stringify), [])
      else if stripQF req.url = "/api/presentation-types" then
        (some (jsonResp 200 typesVal.stringify), [])
      else if stripQF req.url = "/api/audiences" then
        (some (jsonResp 200 audiencesVal.stringify), [])
      else if stripQF req.url = "/api/generate" ∧ req.method = "POST" then
        generateRoute env req
      else if strStartsWith (stripQF req.url) "/output/" = true then
        outputRoute env (stripQF req.url)
      else staticRoute env (stripQF req.url)) := by
    unfold handleRequest
    rw [if_neg h1]
  rw [heq]
  clear heq
  by_cases h2 : stripQF req.url = "/api/health"
  · rw [if_pos h2]; exact Or.inr (Or.inl ⟨_, rfl⟩)
  rw [if_neg h2]
  by_cases h3 : stripQF req.url = "/api/templates"
  · rw [if_pos h3]; exact Or.inr (Or.inl ⟨_, rfl⟩)
  rw [if_neg h3]
  by_cases h4 : stripQF req.url = "/api/presentation-types"
  · rw [if_pos h4]; exact Or.inr (Or.inl ⟨_, rfl⟩)
  rw [if_neg h4]
  by_cases h5 : stripQF req.url = "/api/audiences"
  · rw [if_pos h5]; exact Or.inr (Or.inl ⟨_, rfl⟩)
  rw [if_neg h5]
  by_cases h6 : stripQF req.url = "/api/generate" ∧ req.method = "POST"
  · rw [if_pos h6]
    rcases generateRoute_shape env req with ⟨e, hbe, hge⟩ | hge | ⟨bd, argv, hge⟩
    · exact Or.inr (Or.inr (Or.inl ⟨e, hbe, hge⟩))
    · exact Or.inr (Or.inr (Or.inr (Or.inl hge)))
    · exact Or.inr (Or.inr (Or.inr (Or.inr (Or.inl ⟨bd, argv, hge⟩))))
  rw [if_neg h6]
  by_cases h7 : strStartsWith (stripQF req.url) "/output/" = true
  · rw [if_pos h7]
    rcases outputRoute_shape env (stripQF req.url) with ⟨ct, bd, ho⟩ | ⟨bd, ho⟩ | ho
    · exact Or.inr (Or.inr (Or.inr (Or.inr (Or.inr (Or.inl ⟨ct, bd, ho⟩)))))
    · exact Or.inr (Or.inr (Or.inr (Or.inr (Or.inr (Or.inr (Or.inl ⟨bd, ho⟩))))))
    · exact Or.inr (Or.inr (Or.inr (Or.inr (Or.inr (Or.inr (Or.inr ho))))))
  rw [if_neg h7]
  rcases staticRoute_shape env (stripQF req.url) with ⟨ct, bd, hs⟩ | ⟨bd, hs⟩
  · exact Or.inr (Or.inr (Or.inr (Or.inr (Or.inr (Or.inl ⟨ct, bd, hs⟩)))))
  · exact Or.inr (Or.inr (Or.inr (Or.inr (Or.inr (Or.inr (Or.inl ⟨bd, hs⟩))))))

/-- C8: every response the dispatcher produces carries the three permissive
CORS headers (set before routing), and an OPTIONS request is answered 204
with empty body and no spawn before any route matching. -/
theorem cors_and_options_invariant (env : ServerEnv) (req : HttpRequest) :
    (∀ r : HttpResponse, (handleRequest env req).1 = some r →
      ∃ rest, r.headers = corsHeaders ++ rest) ∧
    (req.method = "OPTIONS" →
      handleRequest env req = (some ⟨204, corsHeaders, ""⟩, [])) := by
  constructor
  · intro r hr
    rcases handleRequest_branches env req with
      h | ⟨bd, h⟩ | ⟨e, hbe, h⟩ | h | ⟨bd, argv, h⟩ | ⟨ct, bd, h⟩ | ⟨bd, h⟩ | h
    all_goals rw [h] at hr
    all_goals first
      | exact Option.noConfusion hr
      | (obtain rfl := Option.some.inj hr; exact ⟨_, rfl⟩)
  · intro h
    exact handleRequest_options env req h

/-- Witness for C8: the CORS headers on a served catalog response, and the
204 short-circuit for an OPTIONS request to an arbitrary path. -/
theorem cors_and_options_invariant_witness :
    (∃ rest, (jsonResp 200 healthVal.stringify).headers = corsHeaders ++ rest) ∧
    handleRequest ⟨"/s", "/o", "/f", fun _ => none, ⟨some 0, "", "", []⟩, "i"⟩
        ⟨"OPTIONS", "/anything", .error ""⟩ =
      (some ⟨204, corsHeaders, ""⟩, []) :=
  ⟨(cors_and_options_invariant ⟨"/s", "/o", "/f", fun _ => none, ⟨some 0, "", "", []⟩, "i"⟩
      ⟨"GET", "/api/health", .error ""⟩).1 _ rfl,
   (cors_and_options_invariant ⟨"/s", "/o", "/f", fun _ => none, ⟨some 0, "", "", []⟩, "i"⟩
      ⟨"OPTIONS", "/anything", .error ""⟩).2 rfl⟩

/-- C9: the promise executor of `generatePresentation` resolves (never
rejects) for every process outcome, with a result whose JSON carries a
boolean `success` field; consequently a 500 response from the dispatcher
can only arise from a request-body parse failure. -/
theorem generation_never_rejects_500_only_parse (env : ServerEnv) (req : HttpRequest) :
    (∃ r : GenResult, generatePresentationP env.proc = .ok r ∧
      r.toJson.lookupField "success" = some (.bool r.success)) ∧
    (∀ resp : HttpResponse, (handleRequest env req).1 = some resp → resp.status = 500 →
      ∃ e, req.body = .error e) := by
  constructor
  · obtain ⟨r, hr⟩ := generatePresentationP_isOk env.proc
    exact ⟨r, hr, rfl⟩
  · intro resp hresp h500
    rcases handleRequest_branches env req with
      h | ⟨bd, h⟩ | ⟨e, hbe, h⟩ | h | ⟨bd, argv, h⟩ | ⟨ct, bd, h⟩ | ⟨bd, h⟩ | h
    all_goals rw [h] at hresp
    all_goals first
      | exact Option.noConfusion hresp
      | (obtain rfl := Option.some.inj hresp
         first
           | exact ⟨e, hbe⟩
           | (exfalso; revert h500; simp [jsonResp, typedResp]))

theorem takeWhile_append_stop {p : Char → Bool} :
    ∀ (xs : List Char) (y : Char) (ys : List Char), (∀ c ∈ xs, p c = true) → p y = false →
      List.takeWhile p (xs ++ y :: ys) = xs := by
  intro xs y ys hall hy
  induction xs with
  | nil => simp [List.takeWhile, hy]
  | cons c cs ih =>
    have hc : p c = true := hall c (by simp)
    simp [List.takeWhile, hc, ih (fun d hd => hall d (by simp [hd]))]

/-- C10: route selection depends only on the pathname: appending a query
string to a query-less and fragment-less url leaves the dispatcher's
behaviour unchanged, because `new URL(...).pathname` strips it before any
matching. -/
theorem routing_ignores_query_string (env : ServerEnv) (m u q : String)
    (b : Except String GenOptions) (hq : '?' ∉ u.data) (hh : '#' ∉ u.data) :
    handleRequest env ⟨m, u ++ "?" ++ q, b⟩ = handleRequest env ⟨m, u, b⟩ := by
  have hall : ∀ c ∈ u.data, (fun c : Char => decide (¬c = '?' ∧ ¬c = '#')) c = true := by
    intro c hc
    have h1 : c ≠ '?' := fun h => hq (h ▸ hc)
    have h2 : c ≠ '#' := fun h => hh (h ▸ hc)
    simp [h1, h2]
  have hdata : (u ++ "?" ++ q).data = u.data ++ '?' :: q.data := by
    rw [String.data_append, String.data_append]
    have h9 : ("?" : String).data = ['?'] := rfl
    rw [h9, List.append_assoc]
    rfl
  have hstrip : stripQF (u ++ "?" ++ q) = stripQF u := by
    unfold stripQF
    rw [hdata]
    rw [takeWhile_append_stop u.data '?' q.data hall (by simp)]
    rw [List.takeWhile_eq_self_iff.mpr (fun c hc => by simpa using hall c hc)]
  simp only [handleRequest, generateRoute, hstrip]

/-- Witness for C10: `/api/health?x=1` is handled as `/api/health`. -/
theorem routing_ignores_query_string_witness :
    handleRequest ⟨"/s", "/o", "/f", fun _ => none, ⟨some 0, "", "", []⟩, "i"⟩
        ⟨"GET", "/api/health" ++ "?" ++ "x=1", .error ""⟩ =
      handleRequest ⟨"/s", "/o", "/f", fun _ => none, ⟨some 0, "", "", []⟩, "i"⟩
        ⟨"GET", "/api/health", .error ""⟩ :=
  routing_ignores_query_string ⟨"/s", "/o", "/f", fun _ => none, ⟨some 0, "", "", []⟩, "i"⟩
    "GET" "/api/health" "x=1" (.error "") (by decide) (by decide)

/-! ### Helper lemmas: posix path normalization -/

theorem splitSlash_cons_slash (rest : List Char) :
    splitSlash ('/' :: rest) = [] :: splitSlash rest := by
  simp [splitSlash]

theorem splitSlash_no_slash (xs : List Char) (h : '/' ∉ xs) : splitSlash xs = [xs] := by
  induction xs with
  | nil => rfl
  | cons c cs ih =>
    have hc : ¬c = '/' := by intro hh; subst hh; exact h (List.mem_cons_self _ _)
    have hcs : '/' ∉ cs := fun hh => h (List.mem_cons_of_mem c hh)
    simp [splitSlash, hc, ih hcs]

theorem splitSlash_append (xs : List Char) (h : '/' ∉ xs) (ys : List Char) :
    splitSlash (xs ++ '/' :: ys) = xs :: splitSlash ys := by
  induction xs with
  | nil => simp [splitSlash]
  | cons c cs ih =>
    have hc : ¬c = '/' := by intro hh; subst hh; exact h (List.mem_cons_self _ _)
    have hcs : '/' ∉ cs := fun hh => h (List.mem_cons_of_mem c hh)
    simp [splitSlash, hc, ih hcs]

theorem splitSlash_joinSegsC (gs : List (List Char)) (tail : List Char)
    (hne : gs ≠ []) (h : ∀ g ∈ gs, '/' ∉ g) :
    splitSlash (joinSegsC gs ++ '/' :: tail) = gs ++ splitSlash tail := by
  induction gs with
  | nil => exact absurd rfl hne
  | cons g rest ih =>
    cases rest with
    | nil =>
      show splitSlash (g ++ '/' :: tail) = [g] ++ splitSlash tail
      rw [splitSlash_append g (h g (by simp)) tail]
      rfl
    | cons g2 rest2 =>
      have hassoc : joinSegsC (g :: g2 :: rest2) ++ '/' :: tail =
          g ++ '/' :: (joinSegsC (g2 :: rest2) ++ '/' :: tail) := by
        show (g ++ '/' :: joinSegsC (g2 :: rest2)) ++ '/' :: tail = _
        simp
      rw [hassoc, splitSlash_append g (h g (by simp)) _,
        ih (by simp) (fun g' hg' => h g' (by simp [hg']))]
      rfl

theorem stepSegC_nil (acc : List (List Char)) : stepSegC acc [] = acc := by
  simp [stepSegC]

theorem stepSegC_dot (acc : List (List Char)) : stepSegC acc ['.'] = acc := by
  simp [stepSegC]

theorem stepSegC_dotdot (acc : List (List Char)) : stepSegC acc ['.', '.'] = acc.dropLast := by
  simp [stepSegC]

theorem foldl_stepSegC_clean (gs : List (List Char)) (acc : List (List Char))
    (h : ∀ g ∈ gs, g ≠ [] ∧ g ≠ ['.'] ∧ g ≠ ['.', '.']) :
    List.foldl stepSegC acc gs = acc ++ gs := by
  induction gs generalizing acc with
  | nil => simp
  | cons g rest ih =>
    have hg := h g (by simp)
    have hstep : stepSegC acc g = acc ++ [g] := by
      unfold stepSegC
      rw [if_neg (not_or.mpr ⟨hg.1, hg.2.1⟩), if_neg hg.2.2]
    rw [List.foldl_cons, hstep, ih _ (fun g' hg' => h g' (by simp [hg']))]
    simp

theorem joinSegsC_append (gs : List (List Char)) (x : List Char) (h : gs ≠ []) :
    joinSegsC (gs ++ [x]) = joinSegsC gs ++ '/' :: x := by
  induction gs with
  | nil => exact absurd rfl h
  | cons g rest ih =>
    cases rest with
    | nil => rfl
    | cons g2 rest2 =>
      show g ++ '/' :: joinSegsC ((g2 :: rest2) ++ [x]) =
        (g ++ '/' :: joinSegsC (g2 :: rest2)) ++ '/' :: x
      rw [ih (by simp)]
      simp

theorem cleanSeg_data {s : String} (h : cleanSeg s) :
    s.data ≠ [] ∧ s.data ≠ ['.'] ∧ s.data ≠ ['.', '.'] ∧ '/' ∉ s.data :=
  ⟨fun hh => h.1 (String.ext hh),
   fun hh => h.2.1 (String.ext hh),
   fun hh => h.2.2.1 (String.ext hh),
   h.2.2.2⟩

theorem posixJoinAbs_absOf (ds : List String) (hne : ds ≠ [])
    (hclean : ∀ d ∈ ds, cleanSeg d) (seg : String) :
    (cleanSeg seg → posixJoinAbs (absOf ds) seg = absOf ds ++ "/" ++ seg) ∧
    posixJoinAbs (absOf ds) "." = absOf ds ∧
    posixJoinAbs (absOf ds) ".." = absOf ds.dropLast := by
  have hgs_ne : ds.map String.data ≠ [] := by
    simpa using hne
  have hgs_slash : ∀ g ∈ ds.map String.data, '/' ∉ g := by
    intro g hg
    obtain ⟨d, hd, rfl⟩ := List.mem_map.mp hg
    exact (hclean d hd).2.2.2
  have hgs_clean : ∀ g ∈ ds.map String.data, g ≠ [] ∧ g ≠ ['.'] ∧ g ≠ ['.', '.'] := by
    intro g hg
    obtain ⟨d, hd, rfl⟩ := List.mem_map.mp hg
    obtain ⟨a, b, c, _⟩ := cleanSeg_data (hclean d hd)
    exact ⟨a, b, c⟩
  have harg : ∀ t : List Char, (absOf ds).data ++ '/' :: t =
      '/' :: (joinSegsC (ds.map String.data) ++ '/' :: t) := fun t => rfl
  refine ⟨?_, ?_, ?_⟩
  · intro hseg
    obtain ⟨h1, h2, h3, h4⟩ := cleanSeg_data hseg
    apply String.ext
    show ('/' :: joinSegsC ((splitSlash ((absOf ds).data ++ '/' :: seg.data)).foldl stepSegC [])) = _
    rw [harg, splitSlash_cons_slash,
      splitSlash_joinSegsC _ _ hgs_ne hgs_slash,
      splitSlash_no_slash seg.data h4]
    rw [List.foldl_cons, stepSegC_nil,
      foldl_stepSegC_clean _ _ (by
        intro g hg
        rcases List.mem_append.mp hg with hg | hg
        · exact hgs_clean g hg
        · rw [List.mem_singleton.mp hg]; exact ⟨h1, h2, h3⟩)]
    rw [List.nil_append, joinSegsC_append _ _ hgs_ne]
    show _ = ((absOf ds ++ "/") ++ seg).data
    rw [String.data_append, String.data_append]
    show '/' :: (joinSegsC (List.map String.data ds) ++ '/' :: seg.data) =
      ('/' :: joinSegsC (List.map String.data ds)) ++ ['/'] ++ seg.data
    simp
  · apply String.ext
    show ('/' :: joinSegsC ((splitSlash ((absOf ds).data ++ '/' :: (".").data)).foldl stepSegC [])) = _
    rw [harg, splitSlash_cons_slash,
      splitSlash_joinSegsC _ _ hgs_ne hgs_slash,
      splitSlash_no_slash (".").data (by decide)]
    rw [List.foldl_cons, stepSegC_nil, List.foldl_append,
      foldl_stepSegC_clean _ _ hgs_clean, List.nil_append]
    show ('/' :: joinSegsC (stepSegC (ds.map String.data) ['.']) : List Char) = (absOf ds).data
    rw [stepSegC_dot]
    rfl
  · apply String.ext
    show ('/' :: joinSegsC ((splitSlash ((absOf ds).data ++ '/' :: ("..").data)).foldl stepSegC [])) = _
    rw [harg, splitSlash_cons_slash,
      splitSlash_joinSegsC _ _ hgs_ne hgs_slash,
      splitSlash_no_slash ("..").data (by decide)]
    rw [List.foldl_cons, stepSegC_nil, List.foldl_append,
      foldl_stepSegC_clean _ _ hgs_clean, List.nil_append]
    show ('/' :: joinSegsC (stepSegC (ds.map String.data) ['.', '.']) : List Char) =
      (absOf ds.dropLast).data
    rw [stepSegC_dotdot]
    show ('/' :: joinSegsC (ds.map String.data).dropLast : List Char) =
      ('/' :: joinSegsC (ds.dropLast.map String.data) : List Char)
    rw [List.map_dropLast]

theorem pathBasename_no_slash (p : String) : '/' ∉ (pathBasename p).data := by
  intro h
  have h2 : '/' ∈ ((p.data.reverse.dropWhile (fun c => c = '/')).takeWhile
      (fun c => ¬c = '/')) := by
    simpa [pathBasename] using h
  have := List.mem_takeWhile_imp h2
  simp at this

theorem takeWhile_dropWhile_ne_nil (m : List Char) (h : ∃ c ∈ m, c ≠ '/') :
    (m.dropWhile (fun c => c = '/')).takeWhile (fun c => ¬c = '/') ≠ [] := by
  induction m with
  | nil =>
    obtain ⟨c, hc, _⟩ := h
    simp at hc
  | cons c cs ih =>
    by_cases hc : c = '/'
    · subst hc
      rw [List.dropWhile_cons_of_pos (by simp)]
      apply ih
      obtain ⟨d, hd, hdne⟩ := h
      rcases List.mem_cons.mp hd with rfl | hd2
      · exact absurd rfl hdne
      · exact ⟨d, hd2, hdne⟩
    · rw [List.dropWhile_cons_of_neg (by simp [hc])]
      rw [List.takeWhile_cons_of_pos (by simp [hc])]
      simp

theorem pathBasename_ne_empty (p : String) (h : strStartsWith p "/output/" = true) :
    pathBasename p ≠ "" := by
  intro hempty
  have hdata : (((p.data.reverse).dropWhile (fun c => c = '/')).takeWhile
      (fun c => ¬c = '/')).reverse = [] := congrArg String.data hempty
  have hnil : ((p.data.reverse).dropWhile (fun c => c = '/')).takeWhile
      (fun c => ¬c = '/') = [] := by
    simpa using hdata
  have hpre : ("/output/" : String).data <+: p.data := by
    simpa [strStartsWith, List.isPrefixOf_iff_prefix] using h
  obtain ⟨t, ht⟩ := hpre
  have ho : 'o' ∈ p.data.reverse := by
    rw [List.mem_reverse, ← ht]
    exact List.mem_append.mpr (Or.inl (by decide))
  exact takeWhile_dropWhile_ne_nil p.data.reverse ⟨'o', ho, by decide⟩ hnil

theorem handleRequest_output (env : ServerEnv) (req : HttpRequest)
    (hm : req.method ≠ "OPTIONS")
    (hpath : strStartsWith (stripQF req.url) "/output/" = true) :
    handleRequest env req = outputRoute env (stripQF req.url) := by
  have n1 : stripQF req.url ≠ "/api/health" := by
    intro hh; rw [hh] at hpath; exact absurd hpath (by decide)
  have n2 : stripQF req.url ≠ "/api/templates" := by
    intro hh; rw [hh] at hpath; exact absurd hpath (by decide)
  have n3 : stripQF req.url ≠ "/api/presentation-types" := by
    intro hh; rw [hh] at hpath; exact absurd hpath (by decide)
  have n4 : stripQF req.url ≠ "/api/audiences" := by
    intro hh; rw [hh] at hpath; exact absurd hpath (by decide)
  have n5 : ¬(stripQF req.url = "/api/generate" ∧ req.method = "POST") := by
    intro hh
    rw [hh.1] at hpath
    exact absurd hpath (by decide)
  unfold handleRequest
  rw [if_neg hm, if_neg n1, if_neg n2, if_neg n3, if_neg n4, if_neg n5, if_pos hpath]

/-- C4: on the `/output/` route the served file is determined solely by the
final path segment of the pathname joined under the output directory.  When
the output directory is a normalized absolute directory whose parent exists
as a directory (as the server guarantees by creating it at startup), any
200 response serves a file named by a clean single segment directly inside
the output directory — `/output/../../etc/passwd` in particular resolves to
`<outDir>/passwd` — with a MIME type derived from the extension, defaulting
to an HTML content type; if the resolved path is absent the response is 404
with the minimal HTML error body. -/
theorem output_route_safety (env : ServerEnv) (req : HttpRequest) (ds : List String)
    (hclean : ∀ d ∈ ds, cleanSeg d) (hne : ds ≠ [])
    (hout : env.outDir = absOf ds)
    (hdir1 : env.fs (absOf ds) = some .dir)
    (hdir2 : env.fs (absOf ds.dropLast) = some .dir)
    (hm : req.method ≠ "OPTIONS")
    (hpath : strStartsWith (stripQF req.url) "/output/" = true) :
    (∀ r : HttpResponse, (handleRequest env req).1 = some r → r.status = 200 →
      ∃ content, cleanSeg (pathBasename (stripQF req.url)) ∧
        env.fs (absOf ds ++ "/" ++ pathBasename (stripQF req.url)) = some (.file content) ∧
        r = typedResp 200
          (mimeOr (lowerStr (extnameOf (pathBasename (stripQF req.url)))) "text/html") content) ∧
    (∀ content, env.fs (posixJoinAbs env.outDir (pathBasename (stripQF req.url))) =
        some (.file content) →
      handleRequest env req =
        (some (typedResp 200
          (mimeOr (lowerStr (extnameOf (pathBasename (stripQF req.url)))) "text/html") content),
         [])) ∧
    (env.fs (posixJoinAbs env.outDir (pathBasename (stripQF req.url))) = none →
      handleRequest env req =
        (some (typedResp 404 "text/html; charset=utf-8" outputNotFoundBody), [])) := by
  have hroute := handleRequest_output env req hm hpath
  have hb_slash : '/' ∉ (pathBasename (stripQF req.url)).data :=
    pathBasename_no_slash (stripQF req.url)
  have hb_ne : pathBasename (stripQF req.url) ≠ "" :=
    pathBasename_ne_empty (stripQF req.url) hpath
  obtain ⟨hJ1, hJ2, hJ3⟩ :=
    posixJoinAbs_absOf ds hne hclean (pathBasename (stripQF req.url))
  refine ⟨?_, ?_, ?_⟩
  · intro r hr h200
    rw [hroute] at hr
    unfold outputRoute at hr
    dsimp only at hr
    rw [hout] at hr
    by_cases hdot : pathBasename (stripQF req.url) = "."
    · rw [hdot, hJ2, hdir1] at hr
      exact Option.noConfusion hr
    by_cases hdd : pathBasename (stripQF req.url) = ".."
    · rw [hdd, hJ3, hdir2] at hr
      exact Option.noConfusion hr
    have hcl : cleanSeg (pathBasename (stripQF req.url)) := ⟨hb_ne, hdot, hdd, hb_slash⟩
    rw [hJ1 hcl] at hr
    cases hfs : env.fs (absOf ds ++ "/" ++ pathBasename (stripQF req.url)) with
    | none =>
      rw [hfs] at hr
      obtain rfl := Option.some.inj hr
      exact absurd h200 (by simp [typedResp])
    | some entry =>
      cases entry with
      | dir =>
        rw [hfs] at hr
        exact Option.noConfusion hr
      | file content =>
        rw [hfs] at hr
        obtain rfl := Option.some.inj hr
        exact ⟨content, hcl, rfl, rfl⟩
  · intro content hcontent
    rw [hroute]
    unfold outputRoute
    dsimp only
    rw [hcontent]
  · intro hnone
    rw [hroute]
    unfold outputRoute
    dsimp only
    rw [hnone]

/-- Witness for C4: the output directory `/app/output` inside `/app`, and
the traversal attempt `/output/../../etc/passwd`, which resolves to the
in-directory name `passwd` and serves `/app/output/passwd`. -/
theorem output_route_safety_witness :
    (∀ r : HttpResponse,
      (handleRequest
          ⟨"/s", "/app/output", "/f",
            (fun p => if p = "/app/output/passwd" then some (.file "INSIDE")
              else if p = "/app/output" then some .dir
              else if p = "/app" then some .dir else none),
            ⟨some 0, "", "", []⟩, "i"⟩
          ⟨"GET", "/output/../../etc/passwd", .error ""⟩).1 = some r → r.status = 200 →
      ∃ content, cleanSeg (pathBasename (stripQF "/output/../../etc/passwd")) ∧
        (fun p => if p = "/app/output/passwd" then some (FsEntry.file "INSIDE")
          else if p = "/app/output" then some FsEntry.dir
          else if p = "/app" then some FsEntry.dir else none)
            (absOf ["app", "output"] ++ "/" ++ pathBasename (stripQF "/output/../../etc/passwd")) =
          some (.file content) ∧
        r = typedResp 200
          (mimeOr (lowerStr (extnameOf (pathBasename (stripQF "/output/../../etc/passwd"))))
            "text/html") content) ∧
    (∀ content,
      (fun p => if p = "/app/output/passwd" then some (FsEntry.file "INSIDE")
        else if p = "/app/output" then some FsEntry.dir
        else if p = "/app" then some FsEntry.dir else none)
          (posixJoinAbs "/app/output" (pathBasename (stripQF "/output/../../etc/passwd"))) =
        some (.file content) →
      handleRequest
          ⟨"/s", "/app/output", "/f",
            (fun p => if p = "/app/output/passwd" then some (.file "INSIDE")
              else if p = "/app/output" then some .dir
              else if p = "/app" then some .dir else none),
            ⟨some 0, "", "", []⟩, "i"⟩
          ⟨"GET", "/output/../../etc/passwd", .error ""⟩ =
        (some (typedResp 200
          (mimeOr (lowerStr (extnameOf (pathBasename (stripQF "/output/../../etc/passwd"))))
            "text/html") content), [])) ∧
    ((fun p => if p = "/app/output/passwd" then some (FsEntry.file "INSIDE")
        else if p = "/app/output" then some FsEntry.dir
        else if p = "/app" then some FsEntry.dir else none)
          (posixJoinAbs "/app/output" (pathBasename (stripQF "/output/../../etc/passwd"))) = none →
      handleRequest
          ⟨"/s", "/app/output", "/f",
            (fun p => if p = "/app/output/passwd" then some (.file "INSIDE")
              else if p = "/app/output" then some .dir
              else if p = "/app" then some .dir else none),
            ⟨some 0, "", "", []⟩, "i"⟩
          ⟨"GET", "/output/../../etc/passwd", .error ""⟩ =
        (some (typedResp 404 "text/html; charset=utf-8" outputNotFoundBody), [])) :=
  output_route_safety
    ⟨"/s", "/app/output", "/f",
      (fun p => if p = "/app/output/passwd" then some (.file "INSIDE")
        else if p = "/app/output" then some .dir
        else if p = "/app" then some .dir else none),
      ⟨some 0, "", "", []⟩, "i"⟩
    ⟨"GET", "/output/../../etc/passwd", .error ""⟩
    ["app", "output"] (by decide) (by decide) (by decide) (by decide) (by decide)
    (by decide) (by decide)

/-- Witness for C9: a concrete signal-terminated outcome resolves, and a
concrete 500 response traces back to a parse failure. -/
theorem generation_never_rejects_500_only_parse_witness :
    (∃ r : GenResult,
      generatePresentationP
          (⟨"/s", "/o", "/f", fun _ => none, ⟨none, "", "", []⟩, "i"⟩ : ServerEnv).proc =
        .ok r ∧
      r.toJson.lookupField "success" = some (.bool r.success)) ∧
    (∃ e, (⟨"POST", "/api/generate", .error "bad"⟩ : HttpRequest).body = Except.error e) :=
  ⟨(generation_never_rejects_500_only_parse
      ⟨"/s", "/o", "/f", fun _ => none, ⟨none, "", "", []⟩, "i"⟩
      ⟨"POST", "/api/generate", .error "bad"⟩).1,
   (generation_never_rejects_500_only_parse
      ⟨"/s", "/o", "/f", fun _ => none, ⟨none, "", "", []⟩, "i"⟩
      ⟨"POST", "/api/generate", .error "bad"⟩).2
     (jsonResp 500 (JVal.obj [("success", JVal.bool false), ("error", JVal.str "bad")]).stringify)
     rfl rfl⟩
